import Mathlib

/-!
Verification of the Order Recommendation & Demand Forecasting Engine.

This file is a shallow embedding, in Lean 4, of the algorithmic core of the
sentinel repository:

* src/order_recommendation_engine.py — the budget-constrained weekly planner
  (carton quantization, per-supplier consolidation, greedy selection under a
  weekly budget, price-comparison side effect, regenerate-and-replace
  persistence);
* src/refresh_price_changes.py — the standalone price change detector
  (exact-name matching, the strict 10% hike rule, clear-and-rebuild);
* src/orderRecommendations/recommendation_engine.py — the sales pattern
  analyzer and the reorder calculator (90-day window statistics, reorder
  quantities, category-based fallback recommendations).

Machine floats of the source are embedded as exact rationals; Python
round (banker's rounding) and floor division are modelled explicitly.
-/

set_option linter.unusedVariables false

namespace Sentinel

/-! ## Python numeric helpers -/

/-- Python builtin round to an integer: banker's rounding (round half to even). -/
def pyRound (q : ℚ) : ℤ :=
  if q - ⌊q⌋ < 1/2 then ⌊q⌋
  else if 1/2 < q - ⌊q⌋ then ⌊q⌋ + 1
  else if ⌊q⌋ % 2 = 0 then ⌊q⌋ else ⌊q⌋ + 1

/-- Python round(x, 2): rounding to two decimal places. -/
def round2 (q : ℚ) : ℚ := (pyRound (q * 100) : ℚ) / 100

/-! ## Weekly planner data model (src/order_recommendation_engine.py)

An `Item` is one entry of the items_with_costs list built by
generate_monthly_recommendations (lines 479-500): a demand-forecast row that
survived both the unit-cost lookup and the supplier assignment, enhanced with
carton data.  order_unit_carton is true exactly when the source sets
order_unit = carton, which requires carton data with items_per_carton > 1. -/

structure Item where
  item_name : String
  category : String
  weekly_demand_qty : ℚ
  weekly_demand_value : ℚ
  sales_velocity : ℚ
  supplier : String
  unit_cost : ℚ
  order_unit_carton : Bool
  items_per_carton : ℤ
  carton_price : ℚ
  deriving DecidableEq, Repr

/-- Line 545: weekly_qty_items = max(1, round(weekly_demand_qty)). -/
def weekly_qty_items (i : Item) : ℤ := max 1 (pyRound i.weekly_demand_qty)

/-- Line 551: cartons_needed = max(1, (weekly_qty_items + items_per_carton - 1)
    // items_per_carton); Python floor division is Int.fdiv. -/
def cartons_needed (i : Item) : ℤ :=
  max 1 ((weekly_qty_items i + i.items_per_carton - 1).fdiv i.items_per_carton)

/-- Lines 554-558: carton cost is the invoice carton price when positive,
    otherwise unit_cost × items_per_carton. -/
def carton_cost (i : Item) : ℚ :=
  if i.carton_price > 0 then i.carton_price else i.unit_cost * i.items_per_carton

/-- Lines 560-591: the cost an item contributes to its supplier order for one
    week: cartons × carton cost for carton items, pieces × unit cost for loose
    items. -/
def item_line_cost (i : Item) : ℚ :=
  if i.order_unit_carton then (cartons_needed i : ℚ) * carton_cost i
  else (weekly_qty_items i : ℚ) * i.unit_cost

/-! ## Per-supplier consolidation (lines 531-599) -/

/-- One step of the defaultdict(list) grouping by supplier: append the item to
    its supplier bucket, creating the bucket at the end on first sight (Python
    dicts preserve insertion order). -/
def add_to_groups : List (String × List Item) → Item → List (String × List Item)
  | [], i => [(i.supplier, [i])]
  | (s, its) :: rest, i =>
    if s = i.supplier then (s, its ++ [i]) :: rest
    else (s, its) :: add_to_groups rest i

/-- Lines 532-534: group items by supplier. -/
def group_by_supplier (items : List Item) : List (String × List Item) :=
  items.foldl add_to_groups []

/-- One candidate weekly order of a supplier: the supplier name, the summed
    cost accumulated over its items, and the items themselves. -/
structure SupplierOrder where
  supplier : String
  cost : ℚ
  order_items : List Item
  deriving DecidableEq, Repr

/-- Lines 537-599: one order per supplier, cost accumulated as the sum of the
    item line costs.  Groups are never empty, so the source guard
    if order_items is always taken. -/
def supplier_orders (items : List Item) : List SupplierOrder :=
  (group_by_supplier items).map fun g => ⟨g.1, (g.2.map item_line_cost).sum, g.2⟩

/-- Line 602: sort supplier orders by cost, largest first (Python sort is
    stable; mergeSort keeps that). -/
def sort_orders_desc (l : List SupplierOrder) : List SupplierOrder :=
  l.mergeSort fun a b => decide (b.cost ≤ a.cost)

/-- Lines 606-627: greedy selection loop.  total is the running week cost;
    orders below the minimum order value are skipped, an order is admitted only
    when the running total plus its cost stays within the weekly budget. -/
def select_orders_aux (min_order_value weekly_budget : ℚ) :
    ℚ → List SupplierOrder → List SupplierOrder
  | _, [] => []
  | total, o :: rest =>
    if o.cost < min_order_value then
      select_orders_aux min_order_value weekly_budget total rest
    else if total + o.cost ≤ weekly_budget then
      o :: select_orders_aux min_order_value weekly_budget (total + o.cost) rest
    else
      select_orders_aux min_order_value weekly_budget total rest

/-- Lines 524-628: the plan of one week. -/
def week_plan (min_order_value weekly_budget : ℚ) (items : List Item) :
    List SupplierOrder :=
  select_orders_aux min_order_value weekly_budget 0
    (sort_orders_desc (supplier_orders items))

/-- Lines 388-403: the month partition loop emits one 7-day week per chunk,
    the last week truncated at month end, so the number of weeks is
    ceil(days_in_month / 7). -/
def num_weeks (days_in_month : ℕ) : ℕ := (days_in_month + 6) / 7

/-- Line 406: weekly budget = monthly budget / number of weeks. -/
def weekly_budget_of (monthly_budget : ℚ) (days_in_month : ℕ) : ℚ :=
  monthly_budget / (num_weeks days_in_month : ℚ)

/-- Lines 506-518: items are sorted by weekly demand value descending and every
    week of the month is planned from the same matched item list with the same
    weekly budget. -/
def monthly_plan (min_order_value monthly_budget : ℚ) (days_in_month : ℕ)
    (items : List Item) : List (List SupplierOrder) :=
  (List.range (num_weeks days_in_month)).map fun _ =>
    week_plan min_order_value (weekly_budget_of monthly_budget days_in_month)
      (items.mergeSort fun a b => decide (b.weekly_demand_value ≤ a.weekly_demand_value))

/-! ## Greedy selection lemmas -/

theorem select_orders_aux_sum_le (minv budget : ℚ) :
    ∀ (l : List SupplierOrder) (total : ℚ), total ≤ budget →
      total + ((select_orders_aux minv budget total l).map SupplierOrder.cost).sum
        ≤ budget := by
  intro l
  induction l with
  | nil => intro total h; simpa [select_orders_aux] using h
  | cons o rest ih =>
    intro total h
    by_cases h1 : o.cost < minv
    · simpa [select_orders_aux, h1] using ih total h
    · by_cases h2 : total + o.cost ≤ budget
      · have h3 := ih (total + o.cost) h2
        simp only [select_orders_aux, h1, h2, if_true, if_false, List.map_cons,
          List.sum_cons] at h3 ⊢
        linarith
      · simpa [select_orders_aux, h1, h2] using ih total h

theorem select_orders_aux_min_value (minv budget : ℚ) :
    ∀ (l : List SupplierOrder) (total : ℚ),
      ∀ o ∈ select_orders_aux minv budget total l, minv ≤ o.cost := by
  intro l
  induction l with
  | nil => intro total o ho; simp [select_orders_aux] at ho
  | cons p rest ih =>
    intro total o ho
    by_cases h1 : p.cost < minv
    · exact ih total o (by simpa [select_orders_aux, h1] using ho)
    · by_cases h2 : total + p.cost ≤ budget
      · simp only [select_orders_aux, h1, h2, if_true, if_false,
          List.mem_cons] at ho
        rcases ho with rfl | ho
        · exact le_of_not_lt h1
        · exact ih (total + p.cost) o ho
      · exact ih total o (by simpa [select_orders_aux, h1, h2] using ho)

theorem select_orders_aux_sublist (minv budget : ℚ) :
    ∀ (l : List SupplierOrder) (total : ℚ),
      List.Sublist (select_orders_aux minv budget total l) l := by
  intro l
  induction l with
  | nil => intro total; simp [select_orders_aux]
  | cons p rest ih =>
    intro total
    by_cases h1 : p.cost < minv
    · simpa [select_orders_aux, h1] using (ih total).cons p
    · by_cases h2 : total + p.cost ≤ budget
      · simpa [select_orders_aux, h1, h2] using (ih (total + p.cost)).cons₂ p
      · simpa [select_orders_aux, h1, h2] using (ih total).cons p

/-! ## Grouping lemmas: supplier keys are unique -/

theorem add_to_groups_keys (gs : List (String × List Item)) (i : Item) :
    (add_to_groups gs i).map Prod.fst =
      if i.supplier ∈ gs.map Prod.fst then gs.map Prod.fst
      else gs.map Prod.fst ++ [i.supplier] := by
  induction gs with
  | nil => simp [add_to_groups]
  | cons g rest ih =>
    obtain ⟨s, its⟩ := g
    by_cases h : s = i.supplier
    · subst h
      simp [add_to_groups]
    · have h2 : ¬ i.supplier = s := fun h2 => h h2.symm
      by_cases h3 : i.supplier ∈ rest.map Prod.fst
      · simp [add_to_groups, h, ih, h2, h3]
      · simp [add_to_groups, h, ih, h2, h3]

theorem add_to_groups_keys_nodup (gs : List (String × List Item)) (i : Item)
    (h : (gs.map Prod.fst).Nodup) :
    ((add_to_groups gs i).map Prod.fst).Nodup := by
  rw [add_to_groups_keys]
  by_cases h2 : i.supplier ∈ gs.map Prod.fst
  · simpa [h2] using h
  · simp only [h2, if_false, List.nodup_append]
    refine ⟨h, by simp, ?_⟩
    intro a ha hb
    rw [List.mem_singleton] at hb
    subst hb
    exact h2 ha

theorem group_by_supplier_keys_nodup (items : List Item) :
    ((group_by_supplier items).map Prod.fst).Nodup := by
  suffices h : ∀ gs : List (String × List Item), (gs.map Prod.fst).Nodup →
      ((items.foldl add_to_groups gs).map Prod.fst).Nodup by
    exact h [] (by simp)
  induction items with
  | nil => intro gs h; simpa using h
  | cons i rest ih =>
    intro gs h
    exact ih (add_to_groups gs i) (add_to_groups_keys_nodup gs i h)

theorem supplier_orders_suppliers (items : List Item) :
    (supplier_orders items).map SupplierOrder.supplier =
      (group_by_supplier items).map Prod.fst := by
  simp [supplier_orders, List.map_map]

theorem supplier_orders_cost_eq (items : List Item) :
    ∀ o ∈ supplier_orders items,
      o.cost = (o.order_items.map item_line_cost).sum := by
  intro o ho
  simp only [supplier_orders, List.mem_map] at ho
  obtain ⟨g, hg, rfl⟩ := ho
  rfl

theorem week_plan_suppliers_nodup (minv budget : ℚ) (items : List Item) :
    ((week_plan minv budget items).map SupplierOrder.supplier).Nodup := by
  have hperm : List.Perm (sort_orders_desc (supplier_orders items))
      (supplier_orders items) := List.mergeSort_perm _ _
  have hnodup : ((sort_orders_desc (supplier_orders items)).map
      SupplierOrder.supplier).Nodup := by
    refine ((hperm.map SupplierOrder.supplier).nodup_iff).2 ?_
    rw [supplier_orders_suppliers]
    exact group_by_supplier_keys_nodup items
  have hsub := select_orders_aux_sublist minv budget
    (sort_orders_desc (supplier_orders items)) 0
  exact hnodup.sublist (hsub.map SupplierOrder.supplier)

theorem week_plan_mem_supplier_orders (minv budget : ℚ) (items : List Item) :
    ∀ o ∈ week_plan minv budget items, o ∈ supplier_orders items := by
  intro o ho
  have hsub := select_orders_aux_sublist minv budget
    (sort_orders_desc (supplier_orders items)) 0
  have hperm : List.Perm (sort_orders_desc (supplier_orders items))
      (supplier_orders items) := List.mergeSort_perm _ _
  exact hperm.mem_iff.1 (hsub.subset ho)

/-! ## Claim theorems for the planner invariants -/

/-- A small concrete matched-item list used by the witnesses. -/
def sample_items : List Item :=
  [⟨"milo 3in1", "beverages", 10, 120, 2, "SupA", 2, true, 12, 20⟩,
   ⟨"gardenia white", "loaf", 5, 15, 3, "SupB", 3, false, 1, 0⟩,
   ⟨"coke can", "beverages", 20, 40, 4, "SupA", 1, false, 1, 0⟩]

/-- C1: for every week produced by the monthly planner, the sum of the costs of
the admitted supplier orders is at most the weekly budget, where the weekly
budget is the monthly cost budget divided by the number of weeks of the target
month; moreover every admitted order costs at least the minimum-order-value
floor — an order below the floor is skipped whole, never partially included. -/
theorem weekly_budget_invariant
    (min_order_value monthly_budget : ℚ) (days_in_month : ℕ) (items : List Item)
    (hb : 0 ≤ monthly_budget) :
    ∀ week ∈ monthly_plan min_order_value monthly_budget days_in_month items,
      ((week.map SupplierOrder.cost).sum
          ≤ weekly_budget_of monthly_budget days_in_month) ∧
      ∀ o ∈ week, min_order_value ≤ o.cost := by
  intro week hw
  simp only [monthly_plan, List.mem_map] at hw
  obtain ⟨n, hn, rfl⟩ := hw
  constructor
  · have h0 : (0:ℚ) ≤ weekly_budget_of monthly_budget days_in_month :=
      div_nonneg hb (Nat.cast_nonneg _)
    have h1 := select_orders_aux_sum_le min_order_value
      (weekly_budget_of monthly_budget days_in_month)
      (sort_orders_desc (supplier_orders
        (items.mergeSort fun a b =>
          decide (b.weekly_demand_value ≤ a.weekly_demand_value)))) 0 h0
    simpa [week_plan] using h1
  · intro o ho
    exact select_orders_aux_min_value _ _ _ 0 o (by simpa [week_plan] using ho)

theorem weekly_budget_invariant_witness :
    (0:ℚ) ≤ 12000 ∧
    ∀ week ∈ monthly_plan 10 12000 30 sample_items,
      ((week.map SupplierOrder.cost).sum ≤ weekly_budget_of 12000 30) ∧
      ∀ o ∈ week, (10:ℚ) ≤ o.cost :=
  ⟨by norm_num, weekly_budget_invariant 10 12000 30 sample_items (by norm_num)⟩

/-- C2: in the plan generated for any target month, no supplier appears in more
than one weekly order within the same week — the week's orders carry pairwise
distinct supplier names — and each order's total is the single summed cost of
all of that supplier's matched items. -/
theorem one_order_per_supplier_per_week
    (min_order_value monthly_budget : ℚ) (days_in_month : ℕ) (items : List Item) :
    ∀ week ∈ monthly_plan min_order_value monthly_budget days_in_month items,
      ((week.map SupplierOrder.supplier).Nodup ∧
       ∀ o ∈ week, o.cost = (o.order_items.map item_line_cost).sum) := by
  intro week hw
  simp only [monthly_plan, List.mem_map] at hw
  obtain ⟨n, hn, rfl⟩ := hw
  refine ⟨week_plan_suppliers_nodup _ _ _, fun o ho => ?_⟩
  exact supplier_orders_cost_eq _ o (week_plan_mem_supplier_orders _ _ _ o ho)

/-- The first week of the sample monthly plan. -/
def sample_week : List SupplierOrder :=
  week_plan 10 (weekly_budget_of 12000 30)
    (sample_items.mergeSort fun a b =>
      decide (b.weekly_demand_value ≤ a.weekly_demand_value))

theorem one_order_per_supplier_per_week_witness :
    (sample_week.map SupplierOrder.supplier).Nodup ∧
    ∀ o ∈ sample_week, o.cost = (o.order_items.map item_line_cost).sum :=
  one_order_per_supplier_per_week 10 12000 30 sample_items sample_week
    (by rw [monthly_plan]
        exact List.mem_map.2 ⟨0, by norm_num [num_weeks], rfl⟩)

/-- C7: for a carton-packaged item (the carton branch requires
items_per_carton > 1), the planned carton count is exactly the ceiling of
required pieces over items_per_carton, where the required pieces are the weekly
demand rounded to the nearest whole unit with a minimum of 1; the count is a
whole number of at least 1. -/
theorem carton_count_is_ceiling (i : Item) (h : 1 < i.items_per_carton) :
    cartons_needed i = ⌈(weekly_qty_items i : ℚ) / (i.items_per_carton : ℚ)⌉ ∧
    1 ≤ cartons_needed i := by
  set w := weekly_qty_items i with hw
  set c := i.items_per_carton with hc
  have hw1 : 1 ≤ w := le_max_left _ _
  have hc0 : (0:ℤ) < c := lt_trans one_pos h
  have hcne : c ≠ 0 := ne_of_gt hc0
  set z : ℤ := (w + c - 1) / c with hz
  have hfd : (w + c - 1).fdiv c = z := Int.fdiv_eq_ediv _ (le_of_lt hc0)
  have hmod : c * z + (w + c - 1) % c = w + c - 1 := Int.ediv_add_emod (w + c - 1) c
  have hr0 : 0 ≤ (w + c - 1) % c := Int.emod_nonneg _ hcne
  have hrc : (w + c - 1) % c < c := Int.emod_lt_of_pos _ hc0
  have hle : w ≤ c * z := by omega
  have hexp : c * (z - 1) = c * z - c := by ring
  have hlt : c * (z - 1) < w := by omega
  have hz1 : 1 ≤ z := by
    by_contra hzc
    push_neg at hzc
    have hzz : z ≤ 0 := by omega
    have hcz : c * z ≤ 0 := mul_nonpos_of_nonneg_of_nonpos (le_of_lt hc0) hzz
    omega
  have hceil : ⌈(w : ℚ) / (c : ℚ)⌉ = z := by
    have hcq : (0:ℚ) < (c : ℚ) := by exact_mod_cast hc0
    rw [Int.ceil_eq_iff]
    constructor
    · rw [lt_div_iff₀ hcq]
      have : ((c : ℚ)) * ((z:ℚ) - 1) < (w:ℚ) := by exact_mod_cast hlt
      linarith
    · rw [div_le_iff₀ hcq]
      have : (w:ℚ) ≤ (c:ℚ) * (z:ℚ) := by exact_mod_cast hle
      linarith
  have hmax : cartons_needed i = z := by
    rw [cartons_needed, ← hw, ← hc, hfd]
    exact max_eq_right hz1
  exact ⟨by rw [hmax, hceil], by rw [hmax]; exact hz1⟩

theorem carton_count_is_ceiling_witness :
    1 < (⟨"milo 3in1", "beverages", 10, 120, 2, "SupA", 2, true, 12, 20⟩ :
        Item).items_per_carton ∧
    (cartons_needed ⟨"milo 3in1", "beverages", 10, 120, 2, "SupA", 2, true, 12, 20⟩ =
        ⌈(weekly_qty_items ⟨"milo 3in1", "beverages", 10, 120, 2, "SupA", 2,
            true, 12, 20⟩ : ℚ) / ((12:ℤ) : ℚ)⌉ ∧
     1 ≤ cartons_needed ⟨"milo 3in1", "beverages", 10, 120, 2, "SupA", 2,
            true, 12, 20⟩) :=
  ⟨by norm_num,
   carton_count_is_ceiling
     ⟨"milo 3in1", "beverages", 10, 120, 2, "SupA", 2, true, 12, 20⟩
     (by norm_num)⟩

/-! ## Price comparison (src/order_recommendation_engine.py lines 232-255 and
src/refresh_price_changes.py lines 142-189)

A `PriceChange` is the record appended to the price_changes list; the
detected_at wall-clock timestamp of the source is not part of the record per
the data model (it is outside the natural key and never compared). -/

structure PriceChange where
  item_name : String
  supplier : String
  inventory_price : ℚ
  invoice_price : ℚ
  price_difference : ℚ
  percentage_hike : ℚ
  deriving DecidableEq, Repr

/-- price_tolerance = 0.10 in both engines. -/
def price_tolerance : ℚ := 10/100

/-- compare_prices (engine lines 232-255): guard against non-positive prices,
    flag exactly when the percentage change is strictly above 10%. -/
def compare_prices (item_name supplier : String)
    (invoice_unit_price inventory_unit_cost : ℚ) : Option PriceChange :=
  if invoice_unit_price ≤ 0 ∨ inventory_unit_cost ≤ 0 then none
  else if (invoice_unit_price - inventory_unit_cost) / inventory_unit_cost * 100
      > price_tolerance * 100 then
    some ⟨item_name, supplier, round2 inventory_unit_cost,
          round2 invoice_unit_price,
          round2 (invoice_unit_price - inventory_unit_cost),
          round2 ((invoice_unit_price - inventory_unit_cost)
            / inventory_unit_cost * 100)⟩
  else none

/-- Most-recent invoice data for one normalized item name (engine lines 94-104,
    detector lines 81-88). -/
structure CartonData where
  supplier : String
  is_carton : Bool
  items_per_carton : ℤ
  carton_price : ℚ
  unit_price_item : ℚ
  item_name_original : String
  deriving DecidableEq, Repr

/-- Per-item invoice price used for the comparison (engine lines 439-451,
    detector lines 69-79): for a carton with items_per_carton > 1 the carton
    price is divided by items_per_carton, falling back to
    unit_price_item / items_per_carton when the carton price is not positive. -/
def invoice_per_item_price (cd : CartonData) : ℚ :=
  if cd.is_carton = true ∧ 1 < cd.items_per_carton then
    if 0 < cd.carton_price then cd.carton_price / cd.items_per_carton
    else cd.unit_price_item / cd.items_per_carton
  else cd.unit_price_item

/-- Python set(name.split()): whitespace-split words, duplicates removed. -/
def name_words (s : String) : List String :=
  ((s.splitOn " ").filter (fun w => w ≠ "")).dedup

/-- Word-overlap similarity used by the fuzzy matchers: |item ∩ other| / |item|
    (0 when the item has no words, in which case the source never updates the
    best match). -/
def word_overlap_score (item_key other_key : String) : ℚ :=
  let iw := name_words item_key
  let ow := name_words other_key
  if iw.length = 0 then 0
  else ((iw.filter (fun w => w ∈ ow)).length : ℚ) / (iw.length : ℚ)

/-- Engine lines 460-473: fuzzy search over the carton info used ONLY to find
    packaging data, with the 70% threshold and best-score tracking. -/
def find_fuzzy_carton (item_key : String) :
    List (String × CartonData) → ℚ → Option CartonData → Option CartonData
  | [], _, best => best
  | (k, d) :: rest, best_score, best =>
    let score := word_overlap_score item_key k
    if best_score < score ∧ 7/10 ≤ score then
      find_fuzzy_carton item_key rest score (some d)
    else
      find_fuzzy_carton item_key rest best_score best

/-- Engine lines 430-474, the per-item carton enhancement step of
    generate_monthly_recommendations: an exact normalized-name hit supplies
    carton data AND (when the invoice per-item price is positive) runs the
    price comparison; a fuzzy hit supplies carton data only and never runs the
    price comparison. -/
def match_and_compare (item_name supplier : String) (unit_cost : ℚ)
    (carton_info : List (String × CartonData)) :
    Option CartonData × Option PriceChange :=
  match carton_info.lookup item_name with
  | some cd =>
      (some cd,
       if 0 < cd.unit_price_item then
         compare_prices item_name supplier (invoice_per_item_price cd) unit_cost
       else none)
  | none => (find_fuzzy_carton item_name carton_info 0 none, none)

/-- One value of the inventory_costs dictionary (engine lines 110-161): a
    catalog cost row keyed by normalized product name; barcode rows alias the
    same data and are skipped by the fuzzy loop. -/
structure InventoryCost where
  product_name : String
  unit_cost : ℚ
  barcode : Option String
  category : String
  deriving DecidableEq, Repr

/-- Engine lines 212-230: fuzzy cost lookup over the name-keyed catalog rows
    with the 80% word-overlap threshold and best-score tracking. -/
def best_fuzzy_cost (item_key : String) :
    List (String × InventoryCost) → ℚ → Option ℚ → Option ℚ
  | [], _, best => best
  | (k, d) :: rest, best_score, best =>
    let score := word_overlap_score item_key k
    if best_score < score ∧ 4/5 ≤ score then
      best_fuzzy_cost item_key rest score (some d.unit_cost)
    else best_fuzzy_cost item_key rest best_score best

/-- find_unit_cost (engine lines 197-230): barcode match first, then exact
    normalized-name match, then 80%-fuzzy name match; the first successful
    strategy wins. -/
def find_unit_cost (item_name : String) (barcode : Option String)
    (inventory_costs : List (String × InventoryCost)) : Option ℚ :=
  match barcode.bind
      (fun b => inventory_costs.find? (fun e => e.2.barcode == some b)) with
  | some e => some e.2.unit_cost
  | none =>
    match inventory_costs.lookup item_name with
    | some d => some d.unit_cost
    | none => best_fuzzy_cost item_name inventory_costs 0 none

/-- Engine lines 415-476 restricted to the price-comparison effect of one
    demand item: resolve the catalog unit cost (barcode / exact / 80%-fuzzy),
    then run the exact-or-fuzzy carton matching where only an exact invoice
    hit may trigger compare_prices.  The supplier assignment (50%-fuzzy, line
    425) only labels the record and is passed in. -/
def engine_item_price_change (item_name : String) (barcode : Option String)
    (inventory_costs : List (String × InventoryCost))
    (carton_info : List (String × CartonData)) (supplier : String) :
    Option PriceChange :=
  match find_unit_cost item_name barcode inventory_costs with
  | none => none
  | some unit_cost =>
      (match_and_compare item_name supplier unit_cost carton_info).2

/-! ## The standalone price change detector (src/refresh_price_changes.py) -/

/-- One most-recent invoice snapshot entry of the detector (lines 81-88). -/
structure InvSnapshot where
  supplier : String
  per_item_price : ℚ
  item_name_original : String
  deriving DecidableEq, Repr

/-- Lines 159-186: one invoice item is compared against the catalog by EXACT
    normalized-name lookup only; a record is built when the percentage change
    is strictly above the 10% tolerance.  (Rat division by a zero catalog cost
    is total here; the source would raise on that input, which no claim
    exercises.) -/
def detector_flag (k : String) (d : InvSnapshot) (cat : List (String × ℚ)) :
    Option PriceChange :=
  match cat.lookup k with
  | none => none
  | some unit_cost =>
      if (d.per_item_price - unit_cost) / unit_cost * 100
          > price_tolerance * 100 then
        some ⟨d.item_name_original, d.supplier, round2 unit_cost,
              round2 d.per_item_price, round2 (d.per_item_price - unit_cost),
              round2 ((d.per_item_price - unit_cost) / unit_cost * 100)⟩
      else none

/-- Lines 155-186: the full comparison pass in invoice-snapshot order. -/
def detector_changes (inv : List (String × InvSnapshot))
    (cat : List (String × ℚ)) : List PriceChange :=
  inv.foldr (fun p acc =>
    match detector_flag p.1 p.2 cat with
    | some r => r :: acc
    | none => acc) []

/-- Lines 49-88 (and engine lines 73-104): rows arrive sorted by invoice date
    descending and only the first occurrence of each normalized item name is
    kept, so the most recent invoice per item is authoritative. -/
def first_seen_by_key {α : Type} : List (String × α) → List String → List (String × α)
  | [], _ => []
  | (k, d) :: rest, seen =>
    if k ∈ seen then first_seen_by_key rest seen
    else (k, d) :: first_seen_by_key rest (k :: seen)

def most_recent_per_item {α : Type} (rows : List (String × α)) : List (String × α) :=
  first_seen_by_key rows []

/-- UNIQUE(item_name, supplier, inventory_price, invoice_price) of the
    price_changes table. -/
def natural_key (r : PriceChange) : String × String × ℚ × ℚ :=
  (r.item_name, r.supplier, r.inventory_price, r.invoice_price)

/-- INSERT OR IGNORE against the natural-key uniqueness constraint. -/
def insert_or_ignore (tbl : List PriceChange) (r : PriceChange) : List PriceChange :=
  if tbl.any (fun x => decide (natural_key x = natural_key r)) then tbl
  else tbl ++ [r]

/-- save_price_changes (detector lines 218-254): insert each detected change,
    ignoring natural-key duplicates. -/
def save_price_changes : List PriceChange → List PriceChange → List PriceChange
  | tbl, [] => tbl
  | tbl, r :: rest => save_price_changes (insert_or_ignore tbl r) rest

/-- refresh (lines 272-296): DROP the price_changes table (lines 191-216),
    recompute every change from the current snapshot, save.  The resulting
    table state does not depend on the prior table state. -/
def refresh_table (inv_rows : List (String × InvSnapshot))
    (cat : List (String × ℚ)) (tbl : List PriceChange) : List PriceChange :=
  save_price_changes [] (detector_changes (most_recent_per_item inv_rows) cat)

/-! ## Claim theorems for price comparison and the detector -/

theorem detector_flag_isSome_lookup (k : String) (d : InvSnapshot)
    (cat : List (String × ℚ)) (r : PriceChange)
    (h : detector_flag k d cat = some r) : (cat.lookup k).isSome = true := by
  unfold detector_flag at h
  cases hl : cat.lookup k with
  | none => rw [hl] at h; exact absurd h (by simp)
  | some c => simp

/-- C4 (amended): price comparison requires an exact normalized-name match
with the invoice data.  In the monthly engine an emitted price change implies
the item name has an exact hit in the invoice carton info — an item matched to
invoice data only by fuzzy similarity is never price-compared (the fuzzy match
may still supply packaging data); in the standalone detector every emitted
record comes from an invoice snapshot key that is exactly present in the
catalog.  (The engine's catalog-cost side, however, is resolved barcode-first /
exact / 80%-fuzzy, see the counterexample.) -/
theorem price_comparison_exact_match_only :
    (∀ (item_name supplier : String) (unit_cost : ℚ)
        (carton_info : List (String × CartonData)),
        (match_and_compare item_name supplier unit_cost carton_info).2.isSome
            = true →
          (carton_info.lookup item_name).isSome = true) ∧
    (∀ (inv : List (String × InvSnapshot)) (cat : List (String × ℚ))
        (r : PriceChange), r ∈ detector_changes inv cat →
          ∃ p ∈ inv, (cat.lookup p.1).isSome = true) := by
  constructor
  · intro item_name supplier unit_cost carton_info h
    unfold match_and_compare at h
    cases hl : carton_info.lookup item_name with
    | none => rw [hl] at h; exact absurd h (by simp)
    | some cd => simp
  · intro inv cat
    induction inv with
    | nil => intro r hr; simp [detector_changes] at hr
    | cons p rest ih =>
      intro r hr
      simp only [detector_changes, List.foldr_cons] at hr
      cases hf : detector_flag p.1 p.2 cat with
      | some q =>
        rw [hf] at hr
        rcases List.mem_cons.1 hr with rfl | hr2
        · exact ⟨p, List.mem_cons_self _ _, detector_flag_isSome_lookup _ _ _ _ hf⟩
        · obtain ⟨p2, hp2, hc2⟩ := ih r hr2
          exact ⟨p2, List.mem_cons_of_mem _ hp2, hc2⟩
      | none =>
        rw [hf] at hr
        obtain ⟨p2, hp2, hc2⟩ := ih r hr
        exact ⟨p2, List.mem_cons_of_mem _ hp2, hc2⟩

/-- Concrete carton snapshot used by the witnesses. -/
def sample_carton_data : CartonData := ⟨"SupA", true, 12, 20, 2, "Milo 3in1"⟩

theorem price_comparison_exact_match_only_witness :
    ((match_and_compare "milo 3in1" "SupA" 1
        [("milo 3in1", sample_carton_data)]).2.isSome = true) ∧
    (([("milo 3in1", sample_carton_data)].lookup "milo 3in1").isSome = true) := by
  have h1 : (match_and_compare "milo 3in1" "SupA" 1
      [("milo 3in1", sample_carton_data)]).2.isSome = true := by
    have hl : (([("milo 3in1", sample_carton_data)]).lookup "milo 3in1")
        = some sample_carton_data := rfl
    unfold match_and_compare
    rw [hl]
    norm_num [compare_prices, invoice_per_item_price, sample_carton_data,
      price_tolerance]
  exact ⟨h1, price_comparison_exact_match_only.1 "milo 3in1" "SupA" 1
    [("milo 3in1", sample_carton_data)] h1⟩

/-- C4 counterexample: the monthly engine price-compares an item whose catalog
cost was found by barcode, not by name.  With the catalog row
"coca cola can 320ml" (barcode B1, cost 1) and the invoice line "coke can"
(per-item price 2), the demand item "coke can" carrying barcode B1 emits a
price change record although no invoice item name equals the catalog item
name: the exactness the engine enforces is only between the item and the
invoice line, while the catalog side may be matched by barcode or 80%-fuzzy
name. -/
theorem engine_price_compare_inexact_catalog_name :
    (engine_item_price_change "coke can" (some "B1")
        [("coca cola can 320ml",
          ⟨"coca cola can 320ml", 1, some "B1", "beverages"⟩)]
        [("coke can", ⟨"SupA", false, 1, 0, 2, "Coke Can"⟩)]
        "SupA").isSome = true ∧
    "coke can" ≠ "coca cola can 320ml" := by
  constructor
  · have hc : find_unit_cost "coke can" (some "B1")
        [("coca cola can 320ml",
          ⟨"coca cola can 320ml", 1, some "B1", "beverages"⟩)] = some 1 := rfl
    unfold engine_item_price_change
    rw [hc]
    show (match_and_compare "coke can" "SupA" 1
      [("coke can", ⟨"SupA", false, 1, 0, 2, "Coke Can"⟩)]).2.isSome = true
    have hl : (([("coke can",
        (⟨"SupA", false, 1, 0, 2, "Coke Can"⟩ : CartonData))]).lookup
        "coke can") = some ⟨"SupA", false, 1, 0, 2, "Coke Can"⟩ := rfl
    unfold match_and_compare
    rw [hl]
    norm_num [compare_prices, invoice_per_item_price, price_tolerance]
  · decide

theorem pct_gt_ten_iff (invoice catalog : ℚ) (h2 : 0 < catalog) :
    ((invoice - catalog) / catalog * 100 > price_tolerance * 100) ↔
      catalog * (11/10) < invoice := by
  rw [price_tolerance, gt_iff_lt, show (10:ℚ)/100*100 = 10 by norm_num,
    div_mul_eq_mul_div, lt_div_iff₀ h2]
  constructor <;> intro h <;> linarith

/-- C5: for positive invoice and catalog prices a record is emitted if and only
if the invoice price exceeds the catalog cost by strictly more than 10% — both
in the engine's compare_prices and in the detector's comparison on an exact
catalog hit; the boundary behaves as specified: $5.50 against $5.00 (exactly
10%) is not flagged, $5.51 against $5.00 (10.2%) is flagged. -/
theorem price_flagged_iff_strictly_above_ten_percent :
    (∀ (n s : String) (invoice catalog : ℚ), 0 < invoice → 0 < catalog →
        ((compare_prices n s invoice catalog).isSome = true ↔
          catalog * (11/10) < invoice)) ∧
    compare_prices "item" "sup" (11/2) 5 = none ∧
    (compare_prices "item" "sup" (551/100) 5).isSome = true ∧
    (∀ (k : String) (d : InvSnapshot) (cat : List (String × ℚ)) (cost : ℚ),
        cat.lookup k = some cost → 0 < d.per_item_price → 0 < cost →
        ((detector_flag k d cat).isSome = true ↔
          cost * (11/10) < d.per_item_price)) := by
  refine ⟨?_, by norm_num [compare_prices, price_tolerance],
    by norm_num [compare_prices, price_tolerance], ?_⟩
  · intro n s invoice catalog h1 h2
    have hg : ¬ (invoice ≤ 0 ∨ catalog ≤ 0) := by push_neg; exact ⟨h1, h2⟩
    unfold compare_prices
    rw [if_neg hg]
    by_cases hp : (invoice - catalog) / catalog * 100 > price_tolerance * 100
    · simpa [hp] using (pct_gt_ten_iff invoice catalog h2).1 hp
    · simp only [hp, if_false, Option.isSome_none, Bool.false_eq_true,
        false_iff]
      exact fun hcon => hp ((pct_gt_ten_iff invoice catalog h2).2 hcon)
  · intro k d cat cost hl h1 h2
    unfold detector_flag
    rw [hl]
    by_cases hp : (d.per_item_price - cost) / cost * 100 > price_tolerance * 100
    · simpa [hp] using (pct_gt_ten_iff d.per_item_price cost h2).1 hp
    · simp only [hp, if_false, Option.isSome_none, Bool.false_eq_true,
        false_iff]
      exact fun hcon => hp ((pct_gt_ten_iff d.per_item_price cost h2).2 hcon)

theorem price_flagged_iff_strictly_above_ten_percent_witness :
    0 < (551/100 : ℚ) ∧ 0 < (5 : ℚ) ∧
    ((compare_prices "itemx" "supx" (551/100) 5).isSome = true ↔
      (5:ℚ) * (11/10) < 551/100) :=
  ⟨by norm_num, by norm_num,
   price_flagged_iff_strictly_above_ten_percent.1 "itemx" "supx" (551/100) 5
     (by norm_num) (by norm_num)⟩

theorem insert_or_ignore_keys (tbl : List PriceChange) (r : PriceChange)
    (h : tbl.Pairwise fun a b => natural_key a ≠ natural_key b) :
    (insert_or_ignore tbl r).Pairwise
      fun a b => natural_key a ≠ natural_key b := by
  unfold insert_or_ignore
  by_cases hc : tbl.any (fun x => decide (natural_key x = natural_key r)) = true
  · simpa [hc] using h
  · rw [if_neg (by simpa using hc), List.pairwise_append]
    refine ⟨h, by simp, ?_⟩
    intro a ha b hb
    rw [List.mem_singleton] at hb
    subst hb
    intro he
    exact hc (List.any_eq_true.2 ⟨a, ha, by simp [he]⟩)

theorem save_price_changes_keys (changes : List PriceChange) :
    ∀ tbl, tbl.Pairwise (fun a b => natural_key a ≠ natural_key b) →
      (save_price_changes tbl changes).Pairwise
        (fun a b => natural_key a ≠ natural_key b) := by
  induction changes with
  | nil => intro tbl h; simpa [save_price_changes] using h
  | cons r rest ih =>
    intro tbl h
    exact ih (insert_or_ignore tbl r) (insert_or_ignore_keys tbl r h)

/-- C6: running the detector twice on unchanged invoice and catalog inputs
yields an identical persisted record set — each run drops and fully rebuilds
the table from the current snapshot, so the rebuilt state is independent of
whatever was there before — and the rebuilt table never holds two rows with
the same natural key. -/
theorem refresh_idempotent (inv_rows : List (String × InvSnapshot))
    (cat : List (String × ℚ)) (tbl : List PriceChange) :
    refresh_table inv_rows cat (refresh_table inv_rows cat tbl) =
        refresh_table inv_rows cat tbl ∧
    (refresh_table inv_rows cat tbl).Pairwise
      (fun a b => natural_key a ≠ natural_key b) :=
  ⟨rfl, save_price_changes_keys _ [] List.Pairwise.nil⟩

/-! ## Persistence of the weekly plan (engine lines 630-714) -/

inductive OrderStatus
  | pending
  | ordered
  | delivered
  deriving DecidableEq, Repr

/-- One row of the order_recommendations table. -/
structure OrderRow where
  supplier_name : String
  recommended_date : String
  total_amount : ℚ
  status : OrderStatus
  deriving DecidableEq, Repr

/-- clear_pending_recommendations (lines 658-666): DELETE FROM
    order_recommendations WHERE status = pending.  The surviving table holds
    exactly the non-pending rows; the statement carries NO filter on the
    recommended month. -/
def clear_pending_recommendations (rows : List OrderRow) : List OrderRow :=
  rows.filter (fun r => decide (r.status ≠ OrderStatus.pending))

/-- save_recommendations (lines 630-656): INSERT each generated row. -/
def save_recommendations (rows new_recs : List OrderRow) : List OrderRow :=
  rows ++ new_recs

/-- run (lines 668-714) with clear_existing=True: clear ALL pending rows (the
    delete commits on its own connection), generate the plan of target_month,
    save it.  target_month never reaches the delete step. -/
def run_engine (target_month : String) (new_recs rows : List OrderRow) :
    List OrderRow :=
  save_recommendations (clear_pending_recommendations rows) new_recs

/-- run when the generation step raises before save_recommendations executes:
    the already-committed table state is the cleared one. -/
def run_engine_failing (rows : List OrderRow) : List OrderRow :=
  clear_pending_recommendations rows

/-- Month of a row: the YYYY-MM prefix of its recommended date. -/
def row_month (r : OrderRow) : String := r.recommended_date.take 7

/-- A pending row dated outside the target month of the run. -/
def stray_pending_row : OrderRow :=
  ⟨"SupA", "2025-10-06", 50, OrderStatus.pending⟩

/-- C8 counterexample: a run for target month 2025-11 deletes a pending row
dated 2025-10 — the delete is not scoped to the target month, contradicting
the claim that pending rows outside the target month survive. -/
theorem run_deletes_pending_outside_target_month :
    row_month stray_pending_row ≠ "2025-11" ∧
    stray_pending_row.status = OrderStatus.pending ∧
    stray_pending_row ∉ run_engine "2025-11" [] [stray_pending_row] := by
  refine ⟨by decide, rfl, ?_⟩
  intro h
  simp only [run_engine, save_recommendations, clear_pending_recommendations,
    stray_pending_row, List.filter, decide_not] at h
  simp at h

/-- C8 (amended): a planner run replaces ALL pending rows — regardless of
month — with the newly generated set: a row is in the post-run table exactly
when it is one of the new rows or a prior row whose status is not pending.
Rows already ordered or delivered are untouched. -/
theorem run_replaces_all_pending_rows (target_month : String)
    (new_recs rows : List OrderRow) (r : OrderRow) :
    r ∈ run_engine target_month new_recs rows ↔
      ((r ∈ rows ∧ r.status ≠ OrderStatus.pending) ∨ r ∈ new_recs) := by
  simp [run_engine, save_recommendations, clear_pending_recommendations,
    List.mem_filter]

/-- Concrete pre-run table used by the C9 theorems: one pending row and one
ordered row. -/
def c9_rows : List OrderRow :=
  [⟨"SupB", "2025-11-03", 30, OrderStatus.pending⟩,
   ⟨"SupC", "2025-11-03", 40, OrderStatus.ordered⟩]

/-- C9 counterexample: a run that fails after the clear step does NOT leave the
previously committed rows untouched — the pending row is already gone when the
failure happens, because the delete commits on its own connection before the
plan is generated and no transaction spans the delete + insert pair. -/
theorem failing_run_mutates_prior_state :
    (⟨"SupB", "2025-11-03", 30, OrderStatus.pending⟩ : OrderRow) ∈ c9_rows ∧
    run_engine_failing c9_rows ≠ c9_rows := by
  constructor
  · exact List.mem_cons_self _ _
  · intro h
    have h2 : (⟨"SupB", "2025-11-03", 30, OrderStatus.pending⟩ : OrderRow)
        ∈ run_engine_failing c9_rows := by
      rw [h]; exact List.mem_cons_self _ _
    simp [run_engine_failing, clear_pending_recommendations, c9_rows,
      List.mem_filter] at h2

/-- C9 (amended): a run that fails during generation leaves the table in the
already-committed cleared state: every non-pending row survives unchanged, but
every surviving row is a prior non-pending row — all pending rows are lost and
nothing new is inserted.  Prior pending output is not preserved. -/
theorem failing_run_state (rows : List OrderRow) :
    (∀ r ∈ rows, r.status ≠ OrderStatus.pending →
        r ∈ run_engine_failing rows) ∧
    (∀ r ∈ run_engine_failing rows,
        r ∈ rows ∧ r.status ≠ OrderStatus.pending) := by
  constructor
  · intro r hr hs
    simp [run_engine_failing, clear_pending_recommendations, List.mem_filter,
      hr, hs]
  · intro r hr
    simp only [run_engine_failing, clear_pending_recommendations,
      List.mem_filter, decide_eq_true_eq] at hr
    exact hr

theorem failing_run_state_witness :
    (∀ r ∈ c9_rows, r.status ≠ OrderStatus.pending →
        r ∈ run_engine_failing c9_rows) ∧
    (∀ r ∈ run_engine_failing c9_rows,
        r ∈ c9_rows ∧ r.status ≠ OrderStatus.pending) :=
  failing_run_state c9_rows

/-! ## Reorder calculator
(src/orderRecommendations/recommendation_engine.py) -/

/-- calculate_reorder_point lines 264-269: reorder_quantity =
    max(0, predicted_demand − current_stock), floored to the practical minimum
    of 5 when positive but below 5. -/
def reorder_quantity (predicted_demand current_stock : ℚ) : ℚ :=
  if 0 < max 0 (predicted_demand - current_stock) ∧
      max 0 (predicted_demand - current_stock) < 5 then 5
  else max 0 (predicted_demand - current_stock)

/-- generate_daily_recommendations line 326: the quantity actually emitted for
    a direct product match is round(reorder_quantity). -/
def direct_recommended_quantity (predicted_demand current_stock : ℚ) : ℤ :=
  pyRound (reorder_quantity predicted_demand current_stock)

/-- find_products_for_supplier lines 500-516: a category-matched product whose
    predicted 7-day demand is above 0.5 is emitted with quantity
    max(round(2 × demand), 3). -/
def category_recommended_quantity (predicted_demand : ℚ) : Option ℤ :=
  if 1/2 < predicted_demand then some (max (pyRound (2 * predicted_demand)) 3)
  else none

theorem pyRound_ge (q : ℚ) (n : ℤ) (h : (n : ℚ) ≤ q) : n ≤ pyRound q := by
  have hf : n ≤ ⌊q⌋ := Int.le_floor.2 h
  unfold pyRound
  split_ifs <;> omega

/-- C3 counterexample: the category-fallback path of the engine emits a
positive recommended quantity of 3, below the floor of 5 the claim asserts:
a predicted 7-day demand of 0.6 passes the 0.5 inclusion threshold, and
max(round(1.2), 3) = 3. -/
theorem category_fallback_emits_three :
    category_recommended_quantity (3/5) = some 3 ∧ (0:ℤ) < 3 ∧ (3:ℤ) < 5 := by
  refine ⟨?_, by norm_num, by norm_num⟩
  have hr : pyRound (2 * (3/5 : ℚ)) = 1 := by
    unfold pyRound
    norm_num
  rw [category_recommended_quantity, if_pos (by norm_num), hr]
  norm_num

/-- C3 (amended): quantities from the reorder calculator are non-negative and,
when positive, at least 5 — and remain at least 5 after the direct-match
path's final rounding; but the category-fallback path of
find_products_for_supplier floors its quantity at 3, not 5, so an emitted
positive recommendation is only guaranteed to be at least 3. -/
theorem reorder_quantity_floors :
    (∀ predicted_demand current_stock : ℚ,
        0 ≤ reorder_quantity predicted_demand current_stock ∧
        (0 < reorder_quantity predicted_demand current_stock →
          5 ≤ reorder_quantity predicted_demand current_stock) ∧
        (0 < reorder_quantity predicted_demand current_stock →
          5 ≤ direct_recommended_quantity predicted_demand current_stock)) ∧
    (∀ (d : ℚ) (q : ℤ), category_recommended_quantity d = some q →
        3 ≤ q ∧ 0 < q) := by
  constructor
  · intro pd cs
    by_cases hb : 0 < max 0 (pd - cs) ∧ max 0 (pd - cs) < 5
    · have hq : reorder_quantity pd cs = 5 := by
        rw [reorder_quantity, if_pos hb]
      refine ⟨by rw [hq]; norm_num, fun _ => by rw [hq], fun _ => ?_⟩
      rw [direct_recommended_quantity, hq]
      exact pyRound_ge 5 5 (by norm_num)
    · have hq : reorder_quantity pd cs = max 0 (pd - cs) := by
        rw [reorder_quantity, if_neg hb]
      have h0 : 0 ≤ max 0 (pd - cs) := le_max_left _ _
      refine ⟨by rw [hq]; exact h0, fun hpos => ?_, fun hpos => ?_⟩
      · rw [hq]
        rw [hq] at hpos
        rcases not_and_or.1 hb with h | h
        · exact absurd hpos h
        · linarith [not_lt.1 h]
      · have h5 : 5 ≤ reorder_quantity pd cs := by
          rw [hq]
          rw [hq] at hpos
          rcases not_and_or.1 hb with h | h
          · exact absurd hpos h
          · linarith [not_lt.1 h]
        exact pyRound_ge _ 5 (by exact_mod_cast h5)
  · intro d q hq
    rw [category_recommended_quantity] at hq
    by_cases hd : (1:ℚ)/2 < d
    · rw [if_pos hd] at hq
      have : max (pyRound (2 * d)) 3 = q := by injection hq
      constructor
      · rw [← this]; exact le_max_right _ _
      · rw [← this]
        have := le_max_right (pyRound (2 * d)) 3
        omega
    · rw [if_neg hd] at hq
      exact absurd hq (by simp)

theorem reorder_quantity_floors_witness :
    (0:ℚ) < reorder_quantity 7 3 ∧ 5 ≤ reorder_quantity 7 3 ∧
    5 ≤ direct_recommended_quantity 7 3 ∧
    (category_recommended_quantity (3/5) = some 3 → 3 ≤ (3:ℤ) ∧ 0 < (3:ℤ)) := by
  have hpos : (0:ℚ) < reorder_quantity 7 3 := by
    rw [reorder_quantity]
    split_ifs <;> norm_num
  exact ⟨hpos, (reorder_quantity_floors.1 7 3).2.1 hpos,
    (reorder_quantity_floors.1 7 3).2.2 hpos,
    reorder_quantity_floors.2 (3/5) 3⟩

/-! ## Sales pattern analyzer (recommendation_engine.py lines 39-92)

A transaction is modelled as (product name, calendar day index); quantities do
not matter for the sales-frequency statistic, which counts distinct sale days. -/

/-- Lines 49-50: the latest observed transaction day, Python max over the Date
    column (none when there are no transactions). -/
def latest_day (txs : List (String × ℤ)) : Option ℤ :=
  match txs.map Prod.snd with
  | [] => none
  | d :: ds => some (ds.foldl max d)

/-- Lines 50-51: keep the transactions dated on or after latest − 90 days.
    Both endpoints stay in, an inclusive span of 91 calendar days. -/
def recent_window (txs : List (String × ℤ)) : List (String × ℤ) :=
  match latest_day txs with
  | none => []
  | some m => txs.filter (fun t => decide (m - 90 ≤ t.2))

/-- Lines 54-71: days_with_sales of a product = number of distinct sale days of
    that product inside the window (the daily groupby row count). -/
def days_with_sales (p : String) (txs : List (String × ℤ)) : ℕ :=
  (((recent_window txs).filter (fun t => decide (t.1 = p))).map
    Prod.snd).dedup.length

/-- Line 72: sales_frequency = days_with_sales / 90. -/
def sales_frequency (p : String) (txs : List (String × ℤ)) : ℚ :=
  (days_with_sales p txs : ℚ) / 90

theorem le_foldl_max (d : ℤ) (ds : List ℤ) :
    ∀ a : ℤ, a = d ∨ a ∈ ds → a ≤ ds.foldl max d := by
  induction ds generalizing d with
  | nil =>
    intro a ha
    rcases ha with rfl | h
    · simp
    · simp at h
  | cons b rest ih =>
    intro a ha
    have hstep : List.foldl max d (b :: rest) = List.foldl max (max d b) rest :=
      rfl
    rw [hstep]
    have hinit : max d b ≤ List.foldl max (max d b) rest :=
      ih (max d b) (max d b) (Or.inl rfl)
    rcases ha with rfl | hmem
    · exact le_trans (le_max_left a b) hinit
    · rcases List.mem_cons.1 hmem with rfl | h
      · exact le_trans (le_max_right d a) hinit
      · exact ih (max d b) a (Or.inr h)

theorem le_latest_day (txs : List (String × ℤ)) (m : ℤ)
    (hm : latest_day txs = some m) : ∀ t ∈ txs, t.2 ≤ m := by
  intro t ht
  unfold latest_day at hm
  cases hmap : txs.map Prod.snd with
  | nil => rw [hmap] at hm; exact absurd hm (by simp)
  | cons d ds =>
    rw [hmap] at hm
    have hmm : ds.foldl max d = m := by simpa using hm
    have hmem : t.2 ∈ txs.map Prod.snd := List.mem_map_of_mem _ ht
    rw [hmap] at hmem
    rw [← hmm]
    rcases List.mem_cons.1 hmem with h | h
    · exact le_foldl_max d ds t.2 (Or.inl h)
    · exact le_foldl_max d ds t.2 (Or.inr h)

theorem days_with_sales_le (p : String) (txs : List (String × ℤ)) :
    days_with_sales p txs ≤ 91 := by
  unfold days_with_sales
  cases hlat : latest_day txs with
  | none => simp [recent_window, hlat]
  | some m =>
    set L := (((recent_window txs).filter (fun t => decide (t.1 = p))).map
      Prod.snd) with hL
    have hsub : ∀ x ∈ L.dedup, x ∈ Finset.Icc (m - 90) m := by
      intro x hx
      rw [List.mem_dedup] at hx
      rw [hL, List.mem_map] at hx
      obtain ⟨t, ht, rfl⟩ := hx
      rw [List.mem_filter] at ht
      obtain ⟨htw, htp⟩ := ht
      have htw2 : t ∈ txs.filter (fun t => decide (m - 90 ≤ t.2)) := by
        unfold recent_window at htw
        rw [hlat] at htw
        exact htw
      rw [List.mem_filter] at htw2
      obtain ⟨htx, hge⟩ := htw2
      exact Finset.mem_Icc.2 ⟨by simpa using hge, le_latest_day txs m hlat t htx⟩
    calc L.dedup.length = L.dedup.toFinset.card :=
          (List.toFinset_card_of_nodup (List.nodup_dedup L)).symm
      _ ≤ (Finset.Icc (m - 90) m).card := by
          apply Finset.card_le_card
          intro x hx
          rw [List.mem_toFinset] at hx
          exact hsub x hx
      _ = 91 := by rw [Int.card_Icc]; omega

set_option maxRecDepth 20000 in
/-- C10 counterexample: with a sale of product A on each of the 91 consecutive
days 0..90, the inclusive window latest − 90 .. latest holds 91 distinct sale
days, so sales_frequency = 91/90 > 1, outside the claimed interval [0, 1]. -/
theorem sales_frequency_exceeds_one :
    1 < sales_frequency "A" ((List.range 91).map (fun i => ("A", (i : ℤ)))) := by
  have hd : days_with_sales "A" ((List.range 91).map (fun i => ("A", (i : ℤ))))
      = 91 := by rfl
  rw [sales_frequency, hd]
  norm_num

/-- C10 (amended): the computed sales_frequency always lies in [0, 91/90]; the
upper end 91/90 (not 1) is attainable because the 90-day trailing filter keeps
both endpoint days, an inclusive span of 91 calendar days, while the divisor
stays 90. -/
theorem sales_frequency_bounds (p : String) (txs : List (String × ℤ)) :
    0 ≤ sales_frequency p txs ∧ sales_frequency p txs ≤ 91/90 := by
  constructor
  · rw [sales_frequency]
    positivity
  · rw [sales_frequency]
    have h := days_with_sales_le p txs
    have hq : (days_with_sales p txs : ℚ) ≤ 91 := by exact_mod_cast h
    linarith

end Sentinel
